import Mathlib

/-!
Verification of the local-first persistence and state-synchronization layer of
the chartlabs trading-journal application (React/TypeScript sources).

The development shallowly embeds the relevant TypeScript functions:

* `src/lib/fileSystem.ts` — `sanitizeFolderName`, `buildFileName`,
  `readChartImage`, `loadAllChartMetadata` and friends; asynchronous
  host file-system calls are modelled by a pure directory-tree value
  (`FsNode`), and `catch`-and-`null` error handling by `Option`.
* `src/store.tsx` — the reducer (`SET_STATE`, `ADD_PROJECT`, ...,
  `DELETE_PROJECT`), `loadFromDisk`, `persistAll`, `initializeApp`,
  `getActiveHandle` and the chart-naming step of `addChart`.
* `src/types.ts` — the entity records and the compiled-in defaults.

JavaScript strings are modelled as Lean `String`s; `Array.prototype.sort`
(a stable sort) is modelled by `List.mergeSort`; the host comparators
(`localeCompare` and the default code-unit comparator) are both modelled
as code-point lexicographic comparison on the underlying character lists;
the wall clock consumed by `buildFileName`'s date fallback is passed in
as an explicit `today` argument.
-/

namespace ChartLabs

/-! ### Path Resolver: folder-name sanitization (fileSystem.ts, sanitizeFolderName) -/

/-- Characters matched by the regex in sanitizeFolderName and buildFileName. -/
def isUnsafeChar (c : Char) : Bool :=
  c = '<' || c = '>' || c = ':' || c = '"' || c = '/' || c = '\\' ||
  c = '|' || c = '?' || c = '*'

/-- One character of the global replacement in the TS sanitizers. -/
def replaceUnsafe (c : Char) : Char :=
  if isUnsafeChar c then '_' else c

/-- Whitespace recognized by the JavaScript trim and the whitespace
character class (ASCII subset relevant to file names). -/
def isJsWs (c : Char) : Bool :=
  c = ' ' || c = '\t' || c = '\n' || c = '\r' || c = '\x0b' || c = '\x0c'

/-- Model of JavaScript String.prototype.trim on the character list:
drop whitespace from the front, then from the back. -/
def trimChars (l : List Char) : List Char :=
  (l.dropWhile isJsWs).rdropWhile isJsWs

/-- Embedding of fileSystem.ts sanitizeFolderName:
the unsafe characters are globally replaced by an underscore, the result is
trimmed, and the empty string falls back to "Untitled". -/
def sanitizeFolderName (name : String) : String :=
  let r := trimChars (name.data.map replaceUnsafe)
  if r.isEmpty then "Untitled" else String.mk r

theorem replaceUnsafe_idem (c : Char) :
    replaceUnsafe (replaceUnsafe c) = replaceUnsafe c := by
  by_cases h : isUnsafeChar c = true
  · simp [replaceUnsafe, h]
  · simp [replaceUnsafe, h]

theorem trimChars_sublist (l : List Char) : (trimChars l).Sublist l := by
  unfold trimChars
  exact ((List.rdropWhile_prefix _ _).sublist.trans (List.dropWhile_sublist _))

theorem dropWhile_trimChars (l : List Char) :
    (trimChars l).dropWhile isJsWs = trimChars l := by
  unfold trimChars
  rcases h : (l.dropWhile isJsWs).rdropWhile isJsWs with _ | ⟨a, t⟩
  · simp
  · have hpre := List.rdropWhile_prefix (p := isJsWs) (l := l.dropWhile isJsWs)
    rw [h] at hpre
    obtain ⟨s, hs⟩ := hpre
    have hs' : a :: (t ++ s) = l.dropWhile isJsWs := by
      simpa using hs
    have hne : l.dropWhile isJsWs ≠ [] := by
      rw [← hs']; simp
    have hhead := List.head_dropWhile_not isJsWs l hne
    have hha : (l.dropWhile isJsWs).head hne = a := by
      simp [← hs']
    rw [hha] at hhead
    simp [List.dropWhile_cons, hhead]

theorem trimChars_idem (l : List Char) :
    trimChars (trimChars l) = trimChars l := by
  have h1 : trimChars (trimChars l) =
      ((trimChars l).dropWhile isJsWs).rdropWhile isJsWs := rfl
  rw [h1, dropWhile_trimChars]
  unfold trimChars
  exact List.rdropWhile_idempotent ..

theorem map_replaceUnsafe_fixed {l : List Char}
    (h : ∀ c ∈ l, replaceUnsafe c = c) : l.map replaceUnsafe = l := by
  induction l with
  | nil => rfl
  | cons a t ih =>
      simp only [List.map_cons]
      rw [h a (by simp), ih (fun c hc => h c (by simp [hc]))]

/-- Claim C2 — the folder-name sanitizer is idempotent, maps the empty string
to "Untitled", and maps any string that is empty after unsafe-character
replacement and trimming to "Untitled". -/
theorem sanitizeFolderName_idem_and_empty :
    (∀ x : String, sanitizeFolderName (sanitizeFolderName x) = sanitizeFolderName x) ∧
    sanitizeFolderName "" = "Untitled" ∧
    (∀ x : String, trimChars (x.data.map replaceUnsafe) = [] →
      sanitizeFolderName x = "Untitled") := by
  refine ⟨?_, by decide, ?_⟩
  · intro x
    unfold sanitizeFolderName
    rcases h : trimChars (x.data.map replaceUnsafe) with _ | ⟨a, t⟩
    · simp only [List.isEmpty_nil, if_true]
      decide
    · simp only [List.isEmpty_cons, if_false, Bool.false_eq_true]
      have hsub := trimChars_sublist (x.data.map replaceUnsafe)
      rw [h] at hsub
      have hfix : ∀ c ∈ (a :: t), replaceUnsafe c = c := by
        intro c hc
        have hmem : c ∈ x.data.map replaceUnsafe := hsub.subset hc
        obtain ⟨d, _, hd⟩ := List.mem_map.1 hmem
        rw [← hd]; exact replaceUnsafe_idem d
      have hmap : (String.mk (a :: t)).data.map replaceUnsafe = a :: t :=
        map_replaceUnsafe_fixed hfix
      rw [hmap]
      have htrim : trimChars (a :: t) = a :: t := by
        have := trimChars_idem (x.data.map replaceUnsafe)
        rw [h] at this; exact this
      rw [htrim]
      simp
  · intro x h
    unfold sanitizeFolderName
    rw [h]
    rfl

/-- Concrete instance of the conditional part of the previous theorem:
a string of unsafe characters and blanks sanitizes to "Untitled". -/
theorem sanitizeFolderName_idem_and_empty_witness :
    sanitizeFolderName "  " = "Untitled" :=
  sanitizeFolderName_idem_and_empty.2.2 "  " (by decide)

/-! ### Path Resolver: template substitution (fileSystem.ts, buildFileName) -/

/-- Whether the character list starts with the given pattern. -/
def listStartsWith : List Char → List Char → Bool
  | _, [] => true
  | [], _ :: _ => false
  | a :: s, b :: p => a = b && listStartsWith s p

/-- The GetSubstitution step of JavaScript String.prototype.replace for a
plain-string pattern (no capture groups): in the replacement text, a
doubled dollar yields a dollar, dollar-ampersand inserts the matched text,
dollar-backquote the part of the subject before the match,
dollar-singlequote the part after it; every other dollar sequence is kept
literally. -/
def subDollar (matched pre post : List Char) : List Char → List Char
  | [] => []
  | c :: rest =>
      if c = '$' then
        match rest with
        | [] => ['$']
        | d :: r =>
            if d = '$' then '$' :: subDollar matched pre post r
            else if d = '&' then matched ++ subDollar matched pre post r
            else if d = Char.ofNat 96 then pre ++ subDollar matched pre post r
            else if d = Char.ofNat 39 then post ++ subDollar matched pre post r
            else '$' :: subDollar matched pre post (d :: r)
      else c :: subDollar matched pre post rest

/-- Leftmost occurrence of the pattern: `some (pre, post)` splits the
subject as pre, pattern, post at the first match (the empty pattern
matches at position zero); `none` when the pattern does not occur. -/
def findMatch (pat : List Char) : List Char → Option (List Char × List Char)
  | [] => if listStartsWith [] pat then some ([], []) else none
  | c :: rest =>
      if listStartsWith (c :: rest) pat then
        some ([], (c :: rest).drop pat.length)
      else
        match findMatch pat rest with
        | some (pre, post) => some (c :: pre, post)
        | none => none

/-- JavaScript String.prototype.replace with a plain-string pattern:
only the first (leftmost) occurrence of the pattern is replaced, and the
replacement text undergoes dollar substitution. -/
def replaceFirstList (pat repl s : List Char) : List Char :=
  match findMatch pat s with
  | some (pre, post) => pre ++ subDollar pat pre post repl ++ post
  | none => s

/-- String wrapper for `replaceFirstList`. -/
def replaceFirst (s pat repl : String) : String :=
  String.mk (replaceFirstList pat.data repl.data s.data)

/-- JavaScript falsy-or on strings: the empty string selects the default. -/
def jsOr (s d : String) : String :=
  if s = "" then d else s

/-- Model of replacing every whitespace run by nothing (the session token). -/
def removeWs (s : String) : String :=
  String.mk (s.data.filter (fun c => !isJsWs c))

/-- Helper for `collapseWs`: the flag records whether the previous character
was part of a whitespace run already replaced by a dash. -/
def collapseWsAux : Bool → List Char → List Char
  | _, [] => []
  | inRun, c :: rest =>
      if isJsWs c then
        if inRun then collapseWsAux true rest
        else '-' :: collapseWsAux true rest
      else c :: collapseWsAux false rest

/-- Model of replacing every whitespace run by a single dash
(the setup, project and theme tokens). -/
def collapseWs (s : String) : String :=
  String.mk (collapseWsAux false s.data)

/-- The token values consumed by buildFileName (the TS data parameter). -/
structure FileNameData where
  symbol : String
  timeframe : String
  session : String
  date : String
  outcome : Option String := none
  setupName : Option String := none
  project : Option String := none
  theme : Option String := none
deriving DecidableEq

/-- Embedding of fileSystem.ts buildFileName.  The `today` argument models
the current calendar day that the TS code computes from the wall clock as
the fallback for an empty date token. -/
def buildFileName (today template : String) (data : FileNameData) : String :=
  let n1 := replaceFirst template "{symbol}" (jsOr data.symbol "Unknown")
  let n2 := replaceFirst n1 "{timeframe}" (jsOr data.timeframe "Unknown")
  let n3 := replaceFirst n2 "{session}" (removeWs (jsOr data.session "Unknown"))
  let n4 := replaceFirst n3 "{date}" (jsOr data.date today)
  let n5 := replaceFirst n4 "{outcome}" (jsOr (data.outcome.getD "") "Pending")
  let n6 := replaceFirst n5 "{setup}" (jsOr (collapseWs (data.setupName.getD "")) "Setup")
  let n7 := replaceFirst n6 "{project}" (collapseWs (jsOr (data.project.getD "") "General"))
  let n8 := replaceFirst n7 "{theme}" (collapseWs (jsOr (data.theme.getD "") "Global"))
  String.mk (n8.data.map replaceUnsafe)

/-! ### Data model (types.ts) -/

/-- Embedding of the Project record. -/
structure Project where
  id : String
  name : String
  description : Option String := none
  createdAt : String
deriving DecidableEq

/-- Embedding of the Theme record. -/
structure Theme where
  id : String
  projectId : String
  name : String
  description : Option String := none
  createdAt : String
deriving DecidableEq

/-- Embedding of the Chart record.  JavaScript numbers only occur in fields
none of the verified claims compute with, so they are carried as integers. -/
structure Chart where
  id : String
  imageFileName : String
  thumbnailDataUrl : Option String := none
  symbol : String
  timeframe : String
  session : String
  setupName : String
  direction : Option String := none
  entryPrice : Option Int := none
  stopLoss : Option Int := none
  takeProfit : Option Int := none
  riskReward : Option Int := none
  outcome : Option String := none
  pnl : Option Int := none
  tags : List String := []
  notes : String := ""
  annotationData : Option String := none
  secondaryImages : Option (List String) := none
  projectId : String
  themeId : Option String := none
  tradingDay : String
  createdAt : String
  updatedAt : String
deriving DecidableEq

/-- Embedding of the TimerSession record. -/
structure TimerSession where
  id : String
  projectId : String
  themeId : Option String := none
  symbol : String
  startTime : String
  endTime : Option String := none
  duration : Nat
  date : String
deriving DecidableEq

/-- Embedding of the AppConfig record. -/
structure AppConfig where
  symbols : List String
  timeframes : List String
  sessions : List String
  commonTags : List String
  fileNameTemplate : String
deriving DecidableEq

/-- Embedding of the StorageFolder record; the opaque directory handle is
carried as an abstract token. -/
structure StorageFolder where
  id : String
  name : String
  handle : String
  isConnected : Option Bool := none
deriving DecidableEq

/-- Embedding of the AppState record. -/
structure AppState where
  charts : List Chart
  projects : List Project
  themes : List Theme
  config : AppConfig
  timerSessions : List TimerSession
  storageFolders : List StorageFolder
  activeFolderId : Option String
  initialized : Bool
deriving DecidableEq

/-- Compiled-in default configuration (types.ts DEFAULT_CONFIG). -/
def DEFAULT_CONFIG : AppConfig :=
  { symbols := ["EURUSD", "GBPUSD", "USDJPY", "AUDUSD", "USDCAD", "NZDUSD",
                "XAUUSD", "BTCUSD", "ETHUSD", "US30", "NAS100", "SPX500"],
    timeframes := ["M1", "M5", "M15", "M30", "H1", "H4", "D1", "W1", "MN"],
    sessions := ["London", "New York", "Asian", "Sydney", "London-NY Overlap"],
    commonTags := ["Supply Zone", "Demand Zone", "FVG", "BOS", "CHoCH",
                   "Liquidity Sweep", "Order Block", "Mitigation", "Inducement",
                   "Imbalance"],
    fileNameTemplate := "{symbol}_{timeframe}_{session}_{date}_{outcome}" }

/-- Compiled-in reserved project (types.ts DEFAULT_PROJECT); its creation
timestamp is taken at module-load time in TS and modelled by a fixed token. -/
def DEFAULT_PROJECT : Project :=
  { id := "default", name := "General", createdAt := "startup" }

/-! ### State Store comparators and sorting (store.tsx reducer)

`Array.prototype.sort` is a stable sort, modelled by `List.mergeSort`.
Both the `localeCompare` comparator used for projects and themes and the
default comparator used for the config vocabulary lists are modelled as
code-point lexicographic comparison of the name strings. -/

/-- Lexicographic less-or-equal on character lists. -/
def strLeChars : List Char → List Char → Bool
  | [], _ => true
  | _ :: _, [] => false
  | a :: as, b :: bs => if a = b then strLeChars as bs else decide (a < b)

/-- String comparator modelling the JS comparators used by the reducer. -/
def strLe (a b : String) : Bool :=
  strLeChars a.data b.data

/-- Comparator for projects: by name. -/
def projectLe (a b : Project) : Bool :=
  strLe a.name b.name

/-- Comparator for themes: by name. -/
def themeLe (a b : Theme) : Bool :=
  strLe a.name b.name

/-- The reducer's `[...].sort((a, b) => a.name.localeCompare(b.name))`
for projects. -/
def sortProjects (l : List Project) : List Project :=
  l.mergeSort projectLe

/-- The reducer's `[...].sort((a, b) => a.name.localeCompare(b.name))`
for themes. -/
def sortThemes (l : List Theme) : List Theme :=
  l.mergeSort themeLe

/-- The reducer's `[...].sort()` on a vocabulary list. -/
def sortStrings (l : List String) : List String :=
  l.mergeSort strLe

/-- The config normalization applied by SET_STATE and UPDATE_CONFIG:
all four vocabulary lists are sorted. -/
def sortConfigLists (c : AppConfig) : AppConfig :=
  { c with
    symbols := sortStrings c.symbols,
    timeframes := sortStrings c.timeframes,
    sessions := sortStrings c.sessions,
    commonTags := sortStrings c.commonTags }

/-- The `Partial<AppState>` payload of the SET_STATE action: absent fields
are `none`. -/
structure StatePayload where
  charts : Option (List Chart) := none
  projects : Option (List Project) := none
  themes : Option (List Theme) := none
  config : Option AppConfig := none
  timerSessions : Option (List TimerSession) := none
  storageFolders : Option (List StorageFolder) := none
  activeFolderId : Option (Option String) := none
  initialized : Option Bool := none

/-- Embedding of the reducer's SET_STATE case: the payload fields replace the
state fields, except that supplied projects and themes are re-sorted by name
and a supplied config has its vocabulary lists re-sorted. -/
def setState (s : AppState) (p : StatePayload) : AppState :=
  { charts := p.charts.getD s.charts,
    projects := match p.projects with
      | some ps => sortProjects ps
      | none => s.projects,
    themes := match p.themes with
      | some ts => sortThemes ts
      | none => s.themes,
    config := match p.config with
      | some c => sortConfigLists c
      | none => s.config,
    timerSessions := p.timerSessions.getD s.timerSessions,
    storageFolders := p.storageFolders.getD s.storageFolders,
    activeFolderId := p.activeFolderId.getD s.activeFolderId,
    initialized := p.initialized.getD s.initialized }

/-- Embedding of the reducer's ADD_PROJECT case. -/
def addProject (s : AppState) (p : Project) : AppState :=
  { s with projects := sortProjects (s.projects ++ [p]) }

/-- A `Partial<Project>` update payload. -/
structure ProjectPatch where
  id : Option String := none
  name : Option String := none
  description : Option (Option String) := none
  createdAt : Option String := none

/-- The object spread `{ ...p, ...updates }` for a project. -/
def applyProjectPatch (p : Project) (u : ProjectPatch) : Project :=
  { id := u.id.getD p.id,
    name := u.name.getD p.name,
    description := u.description.getD p.description,
    createdAt := u.createdAt.getD p.createdAt }

/-- Embedding of the reducer's UPDATE_PROJECT case. -/
def updateProject (s : AppState) (pid : String) (u : ProjectPatch) : AppState :=
  { s with
    projects := sortProjects (s.projects.map
      (fun p => if p.id == pid then applyProjectPatch p u else p)) }

/-- Embedding of the reducer's DELETE_PROJECT case: the project and every
theme owned by it are filtered out; charts are untouched. -/
def deleteProject (s : AppState) (pid : String) : AppState :=
  { s with
    projects := s.projects.filter (fun p => p.id != pid),
    themes := s.themes.filter (fun t => t.projectId != pid) }

/-- Embedding of the reducer's ADD_THEME case. -/
def addTheme (s : AppState) (t : Theme) : AppState :=
  { s with themes := sortThemes (s.themes ++ [t]) }

/-- A `Partial<Theme>` update payload. -/
structure ThemePatch where
  id : Option String := none
  projectId : Option String := none
  name : Option String := none
  description : Option (Option String) := none
  createdAt : Option String := none

/-- The object spread `{ ...t, ...updates }` for a theme. -/
def applyThemePatch (t : Theme) (u : ThemePatch) : Theme :=
  { id := u.id.getD t.id,
    projectId := u.projectId.getD t.projectId,
    name := u.name.getD t.name,
    description := u.description.getD t.description,
    createdAt := u.createdAt.getD t.createdAt }

/-- Embedding of the reducer's UPDATE_THEME case. -/
def updateTheme (s : AppState) (tid : String) (u : ThemePatch) : AppState :=
  { s with
    themes := sortThemes (s.themes.map
      (fun t => if t.id == tid then applyThemePatch t u else t)) }

/-- Embedding of the store's initial state (store.tsx initialState). -/
def initialState : AppState :=
  { charts := [],
    projects := [DEFAULT_PROJECT],
    themes := [],
    config := sortConfigLists DEFAULT_CONFIG,
    timerSessions := [],
    storageFolders := [],
    activeFolderId := none,
    initialized := false }

/-! ### Directory Gateway model (fileSystem.ts)

A directory is a list of named entries.  A JSON file's parse result is
carried directly: `chart = none` models a file whose text fails to parse
as chart metadata (the TS code catches the error and skips the file).
`content` is the opaque blob identity that `URL.createObjectURL` would
expose for the file. -/

inductive FsNode where
  | file (name : String) (content : String) (chart : Option Chart)
  | dir (name : String) (entries : List FsNode)

/-- The name of a directory entry. -/
def FsNode.nodeName : FsNode → String
  | .file n _ _ => n
  | .dir n _ => n

/-- First entry carrying the given name, as `values()` enumeration would
encounter it. -/
def findEntry (entries : List FsNode) (name : String) : Option FsNode :=
  entries.find? (fun e => e.nodeName == name)

/-- Model of getDirectoryHandle without creation: the named entry must
exist and be a directory. -/
def findDir (entries : List FsNode) (name : String) : Option (List FsNode) :=
  match findEntry entries name with
  | some (.dir _ es) => some es
  | _ => none

/-- Model of getFileHandle without creation followed by reading: the named
entry must exist and be a file; its blob identity is returned. -/
def findFile (entries : List FsNode) (name : String) : Option String :=
  match findEntry entries name with
  | some (.file _ content _) => some content
  | _ => none

/-- Whether the string ends with the given suffix (String.prototype.endsWith). -/
def strEndsWith (s suffix : String) : Bool :=
  listStartsWith s.data.reverse suffix.data.reverse

/-- Embedding of fileSystem.ts loadJsonFilesFromDir: every file entry whose
name ends in ".json" and whose text parses contributes its parsed chart. -/
def loadJsonFilesFromDir (entries : List FsNode) : List Chart :=
  entries.filterMap (fun e =>
    match e with
    | .file n _ c => if strEndsWith n ".json" then c else none
    | .dir _ _ => none)

/-- Embedding of fileSystem.ts loadAllChartMetadata, applied to the entry
list of the charts directory: flat JSON files at the charts root first,
then the JSON files of every project/theme subdirectory. -/
def scanChartsDir (chartsEntries : List FsNode) : List Chart :=
  loadJsonFilesFromDir chartsEntries ++
  chartsEntries.flatMap (fun e =>
    match e with
    | .dir _ projectEntries =>
        projectEntries.flatMap (fun e2 =>
          match e2 with
          | .dir _ themeEntries => loadJsonFilesFromDir themeEntries
          | .file _ _ _ => [])
    | .file _ _ _ => [])

/-- loadAllChartMetadata from the storage root: getOrCreateSubDir on
"charts" yields an empty directory when it does not exist yet. -/
def loadAllChartMetadata (root : List FsNode) : List Chart :=
  scanChartsDir ((findDir root "charts").getD [])

/-- The nested-path branch of readChartImage:
charts/{sanitized project}/{sanitized theme}/{fileName}.  Missing
directories are created empty by getChartSubDir, so the lookup then fails
at the file. -/
def nestedChartLookup (root : List FsNode) (fileName projectName themeName : String) :
    Option String :=
  let chartsEntries := (findDir root "charts").getD []
  let projectEntries := (findDir chartsEntries (sanitizeFolderName projectName)).getD []
  let themeEntries := (findDir projectEntries (sanitizeFolderName themeName)).getD []
  findFile themeEntries fileName

/-- The legacy flat-path branch of readChartImage: charts/{fileName}. -/
def flatChartLookup (root : List FsNode) (fileName : String) : Option String :=
  findFile ((findDir root "charts").getD []) fileName

/-- Embedding of fileSystem.ts readChartImage: the nested path is attempted
first; on failure the flat legacy path; if both fail the result is null. -/
def readChartImage (root : List FsNode) (fileName projectName themeName : String) :
    Option String :=
  match nestedChartLookup root fileName projectName themeName with
  | some content => some content
  | none => flatChartLookup root fileName

/-! ### Sync Engine model (store.tsx persistAll / loadFromDisk)

The five root-level JSON documents are modelled as optional typed values:
`none` stands for an absent or unparseable document, exactly the cases in
which readJSON returns null. -/

/-- The root-level JSON documents of a storage root. -/
structure RootDocs where
  configDoc : Option AppConfig := none
  projectsDoc : Option (List Project) := none
  themesDoc : Option (List Theme) := none
  timerSessionsDoc : Option (List TimerSession) := none
  chartsIndexDoc : Option (List Chart) := none

/-- The chart-selection logic of loadFromDisk: the index document is used
when present and non-empty, otherwise the recursive metadata scan. -/
def loadChartsFromDocs (chartsIndex : Option (List Chart)) (root : List FsNode) :
    List Chart :=
  match chartsIndex with
  | none => loadAllChartMetadata root
  | some l => if l.isEmpty then loadAllChartMetadata root else l

/-- Embedding of store.tsx loadFromDisk: reads the five documents, selects
the chart list, and dispatches SET_STATE with defaults for missing
documents. -/
def loadFromDisk (docs : RootDocs) (root : List FsNode) (prev : AppState) : AppState :=
  let charts := loadChartsFromDocs docs.chartsIndexDoc root
  setState prev
    { config := some (docs.configDoc.getD DEFAULT_CONFIG),
      projects := some (match docs.projectsDoc with
        | some ps => if ps.isEmpty then [DEFAULT_PROJECT] else ps
        | none => [DEFAULT_PROJECT]),
      themes := some (docs.themesDoc.getD []),
      timerSessions := some (docs.timerSessionsDoc.getD []),
      charts := some charts,
      initialized := some true }

/-- The index entry written for one chart by persistAll: the thumbnail is
dropped and a missing secondary-image list becomes the empty list. -/
def chartIndexEntry (c : Chart) : Chart :=
  { c with
    thumbnailDataUrl := none,
    secondaryImages := some (c.secondaryImages.getD []) }

/-- Embedding of store.tsx persistAll: the four collections and the chart
index are each written as one JSON document at the root. -/
def persistAll (s : AppState) : RootDocs :=
  { configDoc := some s.config,
    projectsDoc := some s.projects,
    themesDoc := some s.themes,
    timerSessionsDoc := some s.timerSessions,
    chartsIndexDoc := some (s.charts.map chartIndexEntry) }

/-! ### Chart naming at creation (store.tsx addChart) -/

/-- The extension derived from the image blob MIME type. -/
def chartExt (mime : String) : String :=
  if mime = "image/png" then "png"
  else if mime = "image/jpeg" then "jpg"
  else "webp"

/-- `state.projects.find(p => p.id === pid)?.name || 'General'`. -/
def lookupProjectName (projects : List Project) (pid : String) : String :=
  jsOr (((projects.find? (fun p => p.id == pid)).map Project.name).getD "") "General"

/-- `state.themes.find(t => t.id === tid)?.name || 'Global'` where the
chart's theme id may be absent. -/
def lookupThemeName (themes : List Theme) (tid : Option String) : String :=
  jsOr (((tid.bind (fun i => themes.find? (fun t => t.id == i))).map Theme.name).getD "")
    "Global"

/-- The metadata supplied to addChart (Chart minus the generated fields). -/
structure ChartDraft where
  symbol : String
  timeframe : String
  session : String
  setupName : String
  outcome : Option String := none
  projectId : String
  themeId : Option String := none
  tradingDay : String
deriving DecidableEq

/-- The file name computed by addChart: the templated base name, an
underscore, the first eight characters of the fresh chart id, a dot and the
extension. -/
def addChartImageFileName (projects : List Project) (themes : List Theme)
    (template today : String) (meta : ChartDraft) (id mime : String) : String :=
  let projectName := lookupProjectName projects meta.projectId
  let themeName := lookupThemeName themes meta.themeId
  let baseName := buildFileName today template
    { symbol := meta.symbol,
      timeframe := meta.timeframe,
      session := meta.session,
      date := meta.tradingDay,
      outcome := meta.outcome,
      setupName := some meta.setupName,
      project := some projectName,
      theme := some themeName }
  baseName ++ "_" ++ id.take 8 ++ "." ++ chartExt mime

/-! ### Storage folders and startup (store.tsx initializeApp) -/

/-- Result of a permission query or request on a directory handle. -/
inductive PermStatus where
  | granted
  | prompt
  | denied
deriving DecidableEq

/-- A folder restored from the handle registry, together with the status
the host returns for its permission query at startup. -/
structure SavedFolder where
  id : String
  name : String
  handle : String
  queryResult : PermStatus
deriving DecidableEq

/-- The per-folder marking loop of initializeApp: a folder is connected
exactly when its permission query returned granted. -/
def initializeFolders (saved : List SavedFolder) : List StorageFolder :=
  saved.map (fun f =>
    { id := f.id,
      name := f.name,
      handle := f.handle,
      isConnected := some (f.queryResult = PermStatus.granted) })

/-- Embedding of store.tsx initializeApp: restores the remembered folders,
marks connectivity, selects the remembered active folder id if it still
exists (the first folder otherwise), and marks the app initialized. -/
def initializeAppState (hasFolder : Bool) (saved : List SavedFolder)
    (savedActiveId : Option String) (prev : AppState) : AppState :=
  if !hasFolder then setState prev { initialized := some true }
  else if saved.isEmpty then setState prev { initialized := some true }
  else
    let folders := initializeFolders saved
    let activeId := match savedActiveId with
      | some aid =>
          if (folders.find? (fun f => f.id == aid)).isSome then aid
          else (folders.head?.map StorageFolder.id).getD ""
      | none => (folders.head?.map StorageFolder.id).getD ""
    let s1 := setState prev
      { storageFolders := some folders, activeFolderId := some (some activeId) }
    setState s1 { initialized := some true }

/-- Embedding of store.tsx getActiveHandle: the handle of the folder the
active id designates, with no connectivity check; a null or empty active id
yields null. -/
def getActiveHandle (s : AppState) : Option String :=
  match s.activeFolderId with
  | none => none
  | some fid =>
      if fid = "" then none
      else (s.storageFolders.find? (fun f => f.id == fid)).map StorageFolder.handle

/-- The folder-marking step of store.tsx reconnectFolder when the
permission request returns granted. -/
def reconnectFolderMark (s : AppState) (fid : String) : AppState :=
  setState s
    { storageFolders := some (s.storageFolders.map
        (fun f => if f.id == fid then { f with isConnected := some true } else f)) }

/-! ### Comparator facts and sortedness of the store collections -/

theorem strLeChars_total (a b : List Char) : (strLeChars a b || strLeChars b a) = true := by
  induction a generalizing b with
  | nil => simp [strLeChars]
  | cons x xs ih =>
      cases b with
      | nil => simp [strLeChars]
      | cons y ys =>
          by_cases h : x = y
          · subst h
            simpa [strLeChars] using ih ys
          · have h' : ¬ y = x := fun e => h e.symm
            simp only [strLeChars, if_neg h, if_neg h', Bool.or_eq_true,
              decide_eq_true_eq]
            rcases lt_or_gt_of_ne h with hlt | hgt
            · exact Or.inl hlt
            · exact Or.inr hgt

theorem strLeChars_trans :
    ∀ (a b c : List Char), strLeChars a b = true → strLeChars b c = true →
      strLeChars a c = true := by
  intro a
  induction a with
  | nil => intro b c _ _; simp [strLeChars]
  | cons x xs ih =>
      intro b c h1 h2
      cases b with
      | nil => simp [strLeChars] at h1
      | cons y ys =>
          cases c with
          | nil => simp [strLeChars] at h2
          | cons z zs =>
              by_cases hxy : x = y
              · subst hxy
                by_cases hyz : x = z
                · subst hyz
                  simp only [strLeChars, if_pos rfl] at h1 h2 ⊢
                  exact ih ys zs h1 h2
                · simp only [strLeChars, if_pos rfl, if_neg hyz] at h1 h2 ⊢
                  exact h2
              · by_cases hyz : y = z
                · subst hyz
                  simp only [strLeChars, if_neg hxy] at h1 ⊢
                  exact h1
                · simp only [strLeChars, if_neg hxy, if_neg hyz,
                    decide_eq_true_eq] at h1 h2
                  have hxz : x < z := lt_trans h1 h2
                  simp only [strLeChars, if_neg (ne_of_lt hxz), decide_eq_true_eq]
                  exact hxz

theorem strLe_trans (a b c : String) (h1 : strLe a b = true) (h2 : strLe b c = true) :
    strLe a c = true :=
  strLeChars_trans a.data b.data c.data h1 h2

theorem strLe_total (a b : String) : (strLe a b || strLe b a) = true :=
  strLeChars_total a.data b.data

theorem sortProjects_pairwise (l : List Project) :
    (sortProjects l).Pairwise (fun a b => projectLe a b = true) :=
  List.sorted_mergeSort
    (fun a b c h1 h2 => strLe_trans a.name b.name c.name h1 h2)
    (fun a b => strLe_total a.name b.name) l

theorem sortThemes_pairwise (l : List Theme) :
    (sortThemes l).Pairwise (fun a b => themeLe a b = true) :=
  List.sorted_mergeSort
    (fun a b c h1 h2 => strLe_trans a.name b.name c.name h1 h2)
    (fun a b => strLe_total a.name b.name) l

theorem sortStrings_pairwise (l : List String) :
    (sortStrings l).Pairwise (fun a b => strLe a b = true) :=
  List.sorted_mergeSort strLe_trans strLe_total l

/-- Claim C4 — after the reducer mutations that insert or update a project
or a theme (ADD_PROJECT, UPDATE_PROJECT, ADD_THEME, UPDATE_THEME, and the
SET_STATE path used by load), the projects and themes collections are
sorted alphabetically by name. -/
theorem store_sorts_projects_and_themes (s : AppState) (p : Project) (t : Theme)
    (pid tid : String) (up : ProjectPatch) (ut : ThemePatch) (pl : StatePayload) :
    (addProject s p).projects.Pairwise (fun a b => projectLe a b = true) ∧
    (updateProject s pid up).projects.Pairwise (fun a b => projectLe a b = true) ∧
    (addTheme s t).themes.Pairwise (fun a b => themeLe a b = true) ∧
    (updateTheme s tid ut).themes.Pairwise (fun a b => themeLe a b = true) ∧
    (∀ ps, pl.projects = some ps →
      (setState s pl).projects.Pairwise (fun a b => projectLe a b = true)) ∧
    (∀ ts, pl.themes = some ts →
      (setState s pl).themes.Pairwise (fun a b => themeLe a b = true)) := by
  refine ⟨sortProjects_pairwise _, sortProjects_pairwise _, sortThemes_pairwise _,
    sortThemes_pairwise _, ?_, ?_⟩
  · intro ps h
    simp only [setState, h]
    exact sortProjects_pairwise ps
  · intro ts h
    simp only [setState, h]
    exact sortThemes_pairwise ts

/-- Concrete instance of the SET_STATE conjuncts of the previous theorem. -/
theorem store_sorts_projects_and_themes_witness :
    (setState initialState
      { projects := some [DEFAULT_PROJECT] }).projects.Pairwise
        (fun a b => projectLe a b = true) ∧
    (setState initialState
      { themes := some [] }).themes.Pairwise (fun a b => themeLe a b = true) :=
  ⟨(store_sorts_projects_and_themes initialState DEFAULT_PROJECT
      ⟨"t1", "default", "Base", none, "now"⟩ "x" "y" {} {}
      { projects := some [DEFAULT_PROJECT] }).2.2.2.2.1 [DEFAULT_PROJECT] rfl,
   (store_sorts_projects_and_themes initialState DEFAULT_PROJECT
      ⟨"t1", "default", "Base", none, "now"⟩ "x" "y" {} {}
      { themes := some [] }).2.2.2.2.2 [] rfl⟩

/-- Claim C3 — DELETE_PROJECT removes exactly the themes owned by the
deleted project and the project itself, and leaves the chart collection
(and the other collections) untouched, dangling references included. -/
theorem deleteProject_cascade (s : AppState) (pid : String) :
    (deleteProject s pid).charts = s.charts ∧
    (∀ t : Theme, t ∈ (deleteProject s pid).themes ↔
      t ∈ s.themes ∧ t.projectId ≠ pid) ∧
    (∀ p : Project, p ∈ (deleteProject s pid).projects ↔
      p ∈ s.projects ∧ p.id ≠ pid) ∧
    (deleteProject s pid).timerSessions = s.timerSessions ∧
    (deleteProject s pid).config = s.config := by
  refine ⟨rfl, ?_, ?_, rfl, rfl⟩
  · intro t
    simp [deleteProject, List.mem_filter]
  · intro p
    simp [deleteProject, List.mem_filter]

/-! ### Load pass: chart index versus recursive scan -/

/-- A chart carrying only the metadata relevant to the scan scenarios. -/
def sampleChart (id name pid : String) : Chart :=
  { id := id, imageFileName := name, symbol := "EURUSD", timeframe := "H1",
    session := "London", setupName := "S", projectId := pid,
    tradingDay := "2025-01-15", createdAt := "t0", updatedAt := "t0" }

/-- A charts tree with an empty flat level and three per-theme JSON
sidecars spread over two projects. -/
def threeSidecarRoot : List FsNode :=
  [.dir "charts"
    [.dir "Alpha"
      [.dir "Base" [.file "a.json" "blobA" (some (sampleChart "c1" "a.png" "p1"))],
       .dir "Deep" [.file "b.json" "blobB" (some (sampleChart "c2" "b.png" "p1"))]],
     .dir "Beta"
      [.dir "Main" [.file "c.json" "blobC" (some (sampleChart "c3" "c.png" "p2"))]]]]

/-- Claim C5 — the load pass takes the chart collection from the index
document when it is present and non-empty, and falls back to the recursive
metadata scan when the index is absent or empty; with an empty index and
three per-theme sidecars on disk, all three charts are loaded. -/
theorem load_prefers_index_else_scan (docs : RootDocs) (root : List FsNode)
    (prev : AppState) :
    (∀ l, docs.chartsIndexDoc = some l → l ≠ [] →
      (loadFromDisk docs root prev).charts = l) ∧
    (docs.chartsIndexDoc = none →
      (loadFromDisk docs root prev).charts = loadAllChartMetadata root) ∧
    (docs.chartsIndexDoc = some [] →
      (loadFromDisk docs root prev).charts = loadAllChartMetadata root) ∧
    (loadFromDisk { chartsIndexDoc := some [] } threeSidecarRoot prev).charts =
      [sampleChart "c1" "a.png" "p1", sampleChart "c2" "b.png" "p1",
       sampleChart "c3" "c.png" "p2"] := by
  refine ⟨?_, ?_, ?_, ?_⟩
  · intro l h hne
    simp [loadFromDisk, setState, loadChartsFromDocs, h, hne]
  · intro h
    simp [loadFromDisk, setState, loadChartsFromDocs, h]
  · intro h
    simp [loadFromDisk, setState, loadChartsFromDocs, h]
  · rfl

/-- Concrete instance of the non-empty-index conjunct of the previous
theorem. -/
theorem load_prefers_index_else_scan_witness :
    (loadFromDisk { chartsIndexDoc := some [sampleChart "c9" "z.png" "p9"] }
      threeSidecarRoot initialState).charts = [sampleChart "c9" "z.png" "p9"] :=
  (load_prefers_index_else_scan
    { chartsIndexDoc := some [sampleChart "c9" "z.png" "p9"] }
    threeSidecarRoot initialState).1
    [sampleChart "c9" "z.png" "p9"] rfl (by decide)

/-! ### Load pass on an empty root -/

/-- Claim C6 (amended) — loading from a fresh root yields the reserved
default project, empty themes, timer sessions and charts, and the
compiled-in default config with its four vocabulary lists sorted (the
SET_STATE path re-sorts them, so the loaded config is not the literal
DEFAULT_CONFIG object). -/
theorem load_empty_root (prev : AppState) :
    (loadFromDisk {} [] prev).projects = [DEFAULT_PROJECT] ∧
    (loadFromDisk {} [] prev).themes = [] ∧
    (loadFromDisk {} [] prev).timerSessions = [] ∧
    (loadFromDisk {} [] prev).charts = [] ∧
    (loadFromDisk {} [] prev).config.fileNameTemplate =
      DEFAULT_CONFIG.fileNameTemplate ∧
    (loadFromDisk {} [] prev).config.symbols.Perm DEFAULT_CONFIG.symbols ∧
    (loadFromDisk {} [] prev).config.symbols.Pairwise
      (fun a b => strLe a b = true) ∧
    (loadFromDisk {} [] prev).config.timeframes.Perm DEFAULT_CONFIG.timeframes ∧
    (loadFromDisk {} [] prev).config.timeframes.Pairwise
      (fun a b => strLe a b = true) ∧
    (loadFromDisk {} [] prev).config.sessions.Perm DEFAULT_CONFIG.sessions ∧
    (loadFromDisk {} [] prev).config.sessions.Pairwise
      (fun a b => strLe a b = true) ∧
    (loadFromDisk {} [] prev).config.commonTags.Perm DEFAULT_CONFIG.commonTags ∧
    (loadFromDisk {} [] prev).config.commonTags.Pairwise
      (fun a b => strLe a b = true) := by
  refine ⟨?_, ?_, rfl, rfl, rfl,
    List.mergeSort_perm _ _, sortStrings_pairwise _,
    List.mergeSort_perm _ _, sortStrings_pairwise _,
    List.mergeSort_perm _ _, sortStrings_pairwise _,
    List.mergeSort_perm _ _, sortStrings_pairwise _⟩
  · show sortProjects [DEFAULT_PROJECT] = [DEFAULT_PROJECT]
    simp [sortProjects]
  · show sortThemes [] = []
    simp [sortThemes]

/-- The claim's strict reading fails on the code: the config loaded from an
empty root is not the compiled-in DEFAULT_CONFIG object, because SET_STATE
re-sorts the vocabulary lists and the compiled-in symbol list is not
alphabetical (it starts with "EURUSD" while it contains "AUDUSD"). -/
theorem load_empty_root_config_ne_default :
    (loadFromDisk {} [] initialState).config ≠ DEFAULT_CONFIG := by
  intro h
  have hdef : (loadFromDisk {} [] initialState).config =
      sortConfigLists DEFAULT_CONFIG := rfl
  have hp : (sortConfigLists DEFAULT_CONFIG).symbols.Pairwise
      (fun a b => strLe a b = true) := sortStrings_pairwise _
  rw [← hdef, h] at hp
  have hle : strLe "EURUSD" "AUDUSD" = true := by
    have hcons := (List.pairwise_cons.1 hp).1
    exact hcons "AUDUSD" (by decide)
  exact absurd hle (by decide)

/-! ### Chart image read with legacy fallback -/

/-- Claim C7 — readChartImage prefers the nested path, falls back to the
flat legacy path, and yields null (not an error) when both lookups fail. -/
theorem readChartImage_fallback (root : List FsNode)
    (fileName projectName themeName : String) :
    (∀ c, nestedChartLookup root fileName projectName themeName = some c →
      readChartImage root fileName projectName themeName = some c) ∧
    (nestedChartLookup root fileName projectName themeName = none →
      ∀ c, flatChartLookup root fileName = some c →
        readChartImage root fileName projectName themeName = some c) ∧
    (nestedChartLookup root fileName projectName themeName = none →
      flatChartLookup root fileName = none →
      readChartImage root fileName projectName themeName = none) := by
  refine ⟨?_, ?_, ?_⟩ <;> intros <;> simp [readChartImage, *]

/-- A root whose image exists only at the legacy flat location. -/
def legacyRoot : List FsNode :=
  [.dir "charts" [.file "old.png" "blobOld" none]]

/-- Concrete instance of the fallback conjunct: a file present only under
the flat legacy path is still read successfully. -/
theorem readChartImage_fallback_witness :
    readChartImage legacyRoot "old.png" "General" "Global" = some "blobOld" :=
  (readChartImage_fallback legacyRoot "old.png" "General" "Global").2.1
    (by decide) "blobOld" (by decide)

/-! ### Startup connectivity marking and the active load target -/

/-- A remembered folder whose permission query returns prompt. -/
def promptedFolder : SavedFolder :=
  { id := "f1", name := "Data", handle := "h1", queryResult := PermStatus.prompt }

/-- The claim's gating part fails on the code: after startup the remembered
active folder is marked disconnected, yet getActiveHandle still returns its
handle, so the load effect does run against it without any reconnect. -/
theorem disconnected_folder_still_load_target :
    ((initializeAppState true [promptedFolder] (some "f1")
        initialState).storageFolders.find? (fun f => f.id == "f1")).map
      StorageFolder.isConnected = some (some false) ∧
    getActiveHandle (initializeAppState true [promptedFolder] (some "f1")
      initialState) = some "h1" := by
  constructor
  · rfl
  · rfl

/-- Claim C9 (amended) — at startup every remembered folder whose
permission query returned non-granted is present marked
`isConnected = false`, and a granted reconnect marks it connected again;
but the active-folder machinery does not consult the flag: getActiveHandle
returns the handle of whatever folder the active id designates, connected
or not, so a disconnected folder is not excluded from being the implicit
load target. -/
theorem startup_marks_disconnected (saved : List SavedFolder)
    (aid : Option String) (prev : AppState) :
    (∀ sf ∈ saved, sf.queryResult ≠ PermStatus.granted → saved ≠ [] →
      ({ id := sf.id, name := sf.name, handle := sf.handle,
         isConnected := some false } : StorageFolder) ∈
        (initializeAppState true saved aid prev).storageFolders) ∧
    (∀ (s : AppState) (fid : String) (folder : StorageFolder),
      s.activeFolderId = some fid → fid ≠ "" →
      s.storageFolders.find? (fun f => f.id == fid) = some folder →
      getActiveHandle s = some folder.handle) ∧
    (∀ (s : AppState) (fid : String), ∀ f ∈ s.storageFolders, f.id = fid →
      ({ f with isConnected := some true } : StorageFolder) ∈
        (reconnectFolderMark s fid).storageFolders) := by
  refine ⟨?_, ?_, ?_⟩
  · intro sf hmem hng hne
    have hnotEmpty : saved.isEmpty = false := by
      cases saved with
      | nil => exact absurd rfl hne
      | cons a l => rfl
    have hfolders : (initializeAppState true saved aid prev).storageFolders =
        initializeFolders saved := by
      simp [initializeAppState, hnotEmpty, setState]
    rw [hfolders]
    have hflag : some false = some (decide (sf.queryResult = PermStatus.granted)) := by
      simp [hng]
    rw [hflag]
    exact List.mem_map.2 ⟨sf, hmem, rfl⟩
  · intro s fid folder hact hne hfind
    simp [getActiveHandle, hact, hne, hfind]
  · intro s fid f hmem hid
    simp only [reconnectFolderMark, setState, Option.getD_some]
    refine List.mem_map.2 ⟨f, hmem, ?_⟩
    simp [hid]

/-- Concrete instance of the previous theorem: a prompted folder appears
marked disconnected, an active disconnected folder still resolves to its
handle, and a granted reconnect re-marks it. -/
theorem startup_marks_disconnected_witness :
    ({ id := "f1", name := "Data", handle := "h1",
       isConnected := some false } : StorageFolder) ∈
      (initializeAppState true [promptedFolder] (some "f1")
        initialState).storageFolders ∧
    getActiveHandle
      { initialState with
        storageFolders := [{ id := "f1", name := "Data", handle := "h1",
                             isConnected := some false }],
        activeFolderId := some "f1" } = some "h1" :=
  ⟨(startup_marks_disconnected [promptedFolder] (some "f1") initialState).1
      promptedFolder (by simp) (by decide) (by simp),
   (startup_marks_disconnected [promptedFolder] (some "f1") initialState).2.1
      { initialState with
        storageFolders := [{ id := "f1", name := "Data", handle := "h1",
                             isConnected := some false }],
        activeFolderId := some "f1" }
      "f1"
      { id := "f1", name := "Data", handle := "h1", isConnected := some false }
      rfl (by decide) (by decide)⟩

/-! ### Uniqueness of generated asset file names -/

/-- Fixed chart metadata used by the naming counterexample. -/
def sampleDraft : ChartDraft :=
  { symbol := "EURUSD", timeframe := "H1", session := "London",
    setupName := "Breakout", outcome := some "win", projectId := "default",
    tradingDay := "2025-01-15" }

set_option maxHeartbeats 2000000 in
/-- The claim fails as stated: two distinct chart ids that share their
first eight characters produce identical asset file names, because only an
eight-character slice of the id is appended. -/
theorem addChart_fileName_collision :
    addChartImageFileName [DEFAULT_PROJECT] [] DEFAULT_CONFIG.fileNameTemplate
      "2025-02-01" sampleDraft "aaaaaaaa-1111" "image/png" =
    addChartImageFileName [DEFAULT_PROJECT] [] DEFAULT_CONFIG.fileNameTemplate
      "2025-02-01" sampleDraft "aaaaaaaa-2222" "image/png" ∧
    ("aaaaaaaa-1111" : String) ≠ "aaaaaaaa-2222" := by
  constructor
  · decide
  · decide

/-- Claim C1 (amended) — the asset file names of two charts with identical
template token values and extension are distinct whenever the first eight
characters of their ids differ. -/
theorem addChart_fileName_distinct (projects : List Project) (themes : List Theme)
    (template today : String) (meta : ChartDraft) (mime : String)
    (id1 id2 : String) (h : id1.take 8 ≠ id2.take 8) :
    addChartImageFileName projects themes template today meta id1 mime ≠
    addChartImageFileName projects themes template today meta id2 mime := by
  intro heq
  apply h
  have hd := congrArg String.data heq
  simp only [addChartImageFileName, String.data_append] at hd
  have h1 := List.append_cancel_right hd
  have h2 := List.append_cancel_right h1
  have h3 := List.append_cancel_left h2
  exact String.ext h3

/-- Concrete instance of the amended uniqueness theorem. -/
theorem addChart_fileName_distinct_witness :
    addChartImageFileName [DEFAULT_PROJECT] [] DEFAULT_CONFIG.fileNameTemplate
      "2025-02-01" sampleDraft "bbbbbbbb-1111" "image/png" ≠
    addChartImageFileName [DEFAULT_PROJECT] [] DEFAULT_CONFIG.fileNameTemplate
      "2025-02-01" sampleDraft "cccccccc-1111" "image/png" :=
  addChart_fileName_distinct [DEFAULT_PROJECT] [] DEFAULT_CONFIG.fileNameTemplate
    "2025-02-01" sampleDraft "image/png" "bbbbbbbb-1111" "cccccccc-1111"
    (by decide)

/-! ### Write-back / load round trip -/

/-- Claim C8 (amended) — for a snapshot that satisfies the store's own
invariants (projects non-empty and projects, themes and the config
vocabulary lists sorted, as every reducer path after a load maintains),
writing the five documents and reloading them restores the project, theme,
timer-session and config collections exactly, and the written chart index
carries every chart field except the thumbnail (with an absent
secondary-image list normalized to the empty list). -/
theorem persist_load_round_trip (s : AppState) (root : List FsNode)
    (prev : AppState)
    (hne : s.projects ≠ [])
    (hps : s.projects.Pairwise (fun a b => projectLe a b = true))
    (hts : s.themes.Pairwise (fun a b => themeLe a b = true))
    (hsy : s.config.symbols.Pairwise (fun a b => strLe a b = true))
    (htf : s.config.timeframes.Pairwise (fun a b => strLe a b = true))
    (hse : s.config.sessions.Pairwise (fun a b => strLe a b = true))
    (hct : s.config.commonTags.Pairwise (fun a b => strLe a b = true)) :
    (loadFromDisk (persistAll s) root prev).projects = s.projects ∧
    (loadFromDisk (persistAll s) root prev).themes = s.themes ∧
    (loadFromDisk (persistAll s) root prev).timerSessions = s.timerSessions ∧
    (loadFromDisk (persistAll s) root prev).config = s.config ∧
    (persistAll s).chartsIndexDoc = some (s.charts.map chartIndexEntry) ∧
    (∀ c : Chart, (chartIndexEntry c).thumbnailDataUrl = none ∧
      (chartIndexEntry c).secondaryImages = some (c.secondaryImages.getD []) ∧
      (chartIndexEntry c).id = c.id ∧
      (chartIndexEntry c).imageFileName = c.imageFileName ∧
      (chartIndexEntry c).symbol = c.symbol ∧
      (chartIndexEntry c).timeframe = c.timeframe ∧
      (chartIndexEntry c).session = c.session ∧
      (chartIndexEntry c).setupName = c.setupName ∧
      (chartIndexEntry c).direction = c.direction ∧
      (chartIndexEntry c).entryPrice = c.entryPrice ∧
      (chartIndexEntry c).stopLoss = c.stopLoss ∧
      (chartIndexEntry c).takeProfit = c.takeProfit ∧
      (chartIndexEntry c).riskReward = c.riskReward ∧
      (chartIndexEntry c).outcome = c.outcome ∧
      (chartIndexEntry c).pnl = c.pnl ∧
      (chartIndexEntry c).tags = c.tags ∧
      (chartIndexEntry c).notes = c.notes ∧
      (chartIndexEntry c).annotationData = c.annotationData ∧
      (chartIndexEntry c).projectId = c.projectId ∧
      (chartIndexEntry c).themeId = c.themeId ∧
      (chartIndexEntry c).tradingDay = c.tradingDay ∧
      (chartIndexEntry c).createdAt = c.createdAt ∧
      (chartIndexEntry c).updatedAt = c.updatedAt) := by
  have hnotEmpty : s.projects.isEmpty = false := by
    cases hp : s.projects with
    | nil => exact absurd hp hne
    | cons a l => rfl
  refine ⟨?_, ?_, rfl, ?_, rfl, ?_⟩
  · show sortProjects (if s.projects.isEmpty then [DEFAULT_PROJECT]
      else s.projects) = s.projects
    rw [hnotEmpty]
    simp only [Bool.false_eq_true, if_false]
    exact List.mergeSort_of_sorted hps
  · show sortThemes s.themes = s.themes
    exact List.mergeSort_of_sorted hts
  · show sortConfigLists s.config = s.config
    unfold sortConfigLists sortStrings
    rw [List.mergeSort_of_sorted hsy, List.mergeSort_of_sorted htf,
      List.mergeSort_of_sorted hse, List.mergeSort_of_sorted hct]
  · intro c
    exact ⟨rfl, rfl, rfl, rfl, rfl, rfl, rfl, rfl, rfl, rfl, rfl, rfl,
      rfl, rfl, rfl, rfl, rfl, rfl, rfl, rfl, rfl, rfl, rfl⟩

/-- Concrete instance of the round-trip theorem at the store's initial
state. -/
theorem persist_load_round_trip_witness :
    (loadFromDisk (persistAll initialState) [] initialState).projects =
      initialState.projects ∧
    (loadFromDisk (persistAll initialState) [] initialState).config =
      initialState.config :=
  ⟨(persist_load_round_trip initialState [] initialState (by decide)
      (by simp [initialState]) List.Pairwise.nil (sortStrings_pairwise _)
      (sortStrings_pairwise _) (sortStrings_pairwise _)
      (sortStrings_pairwise _)).1,
   (persist_load_round_trip initialState [] initialState (by decide)
      (by simp [initialState]) List.Pairwise.nil (sortStrings_pairwise _)
      (sortStrings_pairwise _) (sortStrings_pairwise _)
      (sortStrings_pairwise _)).2.2.2.1⟩

/-- A snapshot whose project list is empty, as DELETE_PROJECT on the
reserved project produces. -/
def emptyProjectsState : AppState :=
  { initialState with projects := [] }

/-- The round-trip claim fails as stated for a snapshot with an empty
project list: the load pass substitutes the reserved default project, so
the reloaded project collection differs from the original. -/
theorem persist_load_round_trip_fails_on_empty_projects :
    (loadFromDisk (persistAll emptyProjectsState) []
      emptyProjectsState).projects ≠ emptyProjectsState.projects := by
  show sortProjects [DEFAULT_PROJECT] ≠ []
  simp [sortProjects]

/-! ### Template substitution replaces only the first token occurrence -/

theorem listStartsWith_append (p r : List Char) :
    listStartsWith (p ++ r) p = true := by
  induction p with
  | nil => cases r <;> rfl
  | cons a p ih => simpa [listStartsWith] using ih

theorem listStartsWith_nil (pat : List Char)
    (h : listStartsWith [] pat = true) : pat = [] := by
  cases pat with
  | nil => rfl
  | cons b p => simp [listStartsWith] at h

theorem eq_append_drop_of_listStartsWith :
    ∀ (pat s : List Char), listStartsWith s pat = true →
      s = pat ++ s.drop pat.length := by
  intro pat
  induction pat with
  | nil => intro s _; simp
  | cons b p ih =>
      intro s h
      cases s with
      | nil => simp [listStartsWith] at h
      | cons a s' =>
          simp only [listStartsWith, Bool.and_eq_true, decide_eq_true_eq] at h
          obtain ⟨hab, hsw⟩ := h
          subst hab
          simpa using ih s' hsw

theorem findMatch_decomp :
    ∀ (s pat pre post : List Char), findMatch pat s = some (pre, post) →
      s = pre ++ pat ++ post := by
  intro s
  induction s with
  | nil =>
      intro pat pre post h
      simp only [findMatch] at h
      by_cases hsw : listStartsWith [] pat = true
      · rw [if_pos hsw] at h
        obtain ⟨rfl, rfl⟩ : pre = [] ∧ post = [] := by
          simpa using h.symm
        simp [listStartsWith_nil pat hsw]
      · rw [if_neg hsw] at h
        exact absurd h (by simp)
  | cons c rest ih =>
      intro pat pre post h
      simp only [findMatch] at h
      by_cases hsw : listStartsWith (c :: rest) pat = true
      · rw [if_pos hsw] at h
        obtain ⟨rfl, rfl⟩ : pre = [] ∧ post = (c :: rest).drop pat.length := by
          simpa using h.symm
        simpa using eq_append_drop_of_listStartsWith pat (c :: rest) hsw
      · rw [if_neg hsw] at h
        cases hfm : findMatch pat rest with
        | none => rw [hfm] at h; exact absurd h (by simp)
        | some pp =>
            obtain ⟨pre1, post1⟩ := pp
            rw [hfm] at h
            simp only [Option.some.injEq, Prod.mk.injEq] at h
            obtain ⟨hpre, hpost⟩ := h
            have hrest := ih pat pre1 post1 hfm
            rw [← hpre, ← hpost]
            simpa using congrArg (List.cons c) hrest

theorem findMatch_leftmost :
    ∀ (s pat pre post x y : List Char), findMatch pat s = some (pre, post) →
      s = x ++ pat ++ y → pre.length ≤ x.length := by
  intro s
  induction s with
  | nil =>
      intro pat pre post x y h hxy
      simp only [findMatch] at h
      by_cases hsw : listStartsWith [] pat = true
      · rw [if_pos hsw] at h
        obtain ⟨rfl, rfl⟩ : pre = [] ∧ post = [] := by
          simpa using h.symm
        simp
      · rw [if_neg hsw] at h
        exact absurd h (by simp)
  | cons c rest ih =>
      intro pat pre post x y h hxy
      simp only [findMatch] at h
      by_cases hsw : listStartsWith (c :: rest) pat = true
      · rw [if_pos hsw] at h
        obtain ⟨rfl, rfl⟩ : pre = [] ∧ post = (c :: rest).drop pat.length := by
          simpa using h.symm
        simp
      · rw [if_neg hsw] at h
        cases x with
        | nil =>
            exfalso
            apply hsw
            have : c :: rest = pat ++ y := by simpa using hxy
            rw [this]
            exact listStartsWith_append pat y
        | cons c' x' =>
            have hcc : c' = c ∧ rest = x' ++ pat ++ y := by
              have : c' :: (x' ++ pat ++ y) = c :: rest := by simpa using hxy.symm
              exact ⟨by injection this, by injection this with _ h2; exact h2.symm⟩
            cases hfm : findMatch pat rest with
            | none => rw [hfm] at h; exact absurd h (by simp)
            | some pp =>
                obtain ⟨pre1, post1⟩ := pp
                rw [hfm] at h
                simp only [Option.some.injEq, Prod.mk.injEq] at h
                obtain ⟨hpre, hpost⟩ := h
                have hle := ih pat pre1 post1 x' y hfm hcc.2
                rw [← hpre]
                simpa using Nat.succ_le_succ hle

theorem findMatch_isSome_of_occurs :
    ∀ (x pat y : List Char), (findMatch pat (x ++ pat ++ y)).isSome = true := by
  intro x
  induction x with
  | nil =>
      intro pat y
      cases hpy : pat ++ y with
      | nil =>
          obtain ⟨hp, hy⟩ := List.append_eq_nil.mp hpy
          subst hp; subst hy
          simp [findMatch, listStartsWith]
      | cons c rest =>
          simp only [List.nil_append, hpy, findMatch]
          rw [if_pos (by rw [← hpy]; exact listStartsWith_append pat y)]
          simp
  | cons c x' ih =>
      intro pat y
      show (findMatch pat (c :: (x' ++ pat ++ y))).isSome = true
      simp only [findMatch]
      by_cases hsw : listStartsWith (c :: (x' ++ pat ++ y)) pat = true
      · rw [if_pos hsw]; simp
      · rw [if_neg hsw]
        have := ih pat y
        cases hfm : findMatch pat (x' ++ pat ++ y) with
        | none => rw [hfm] at this; simp at this
        | some pp => obtain ⟨pre, post⟩ := pp; simp

/-- The shape shared by the eight template tokens: an opening brace, a
brace-free body, a closing brace. -/
def BraceBlock (t : List Char) : Prop :=
  ∃ m, t = '{' :: (m ++ ['}']) ∧ '{' ∉ m ∧ '}' ∉ m

theorem BraceBlock.length_ge {t : List Char} (h : BraceBlock t) :
    2 ≤ t.length := by
  obtain ⟨m, rfl, -, -⟩ := h
  simp

theorem BraceBlock.head_eq {t : List Char} (h : BraceBlock t) :
    t[0]? = some '{' := by
  obtain ⟨m, rfl, -, -⟩ := h
  simp

theorem BraceBlock.no_lbrace {t : List Char} (h : BraceBlock t) (k : Nat)
    (hk : 1 ≤ k) : t[k]? ≠ some '{' := by
  obtain ⟨m, rfl, hm, -⟩ := h
  intro hcon
  cases k with
  | zero => omega
  | succ k2 =>
      rw [List.getElem?_cons_succ] at hcon
      rcases Nat.lt_trichotomy k2 m.length with hlt | heq | hgt
      · rw [List.getElem?_append_left hlt] at hcon
        obtain ⟨hk2, hv⟩ := List.getElem?_eq_some_iff.1 hcon
        exact hm (hv ▸ List.getElem_mem hk2)
      · subst heq
        rw [List.getElem?_append_right (Nat.le_refl _)] at hcon
        rw [Nat.sub_self] at hcon
        exact absurd hcon (by decide)
      · rw [List.getElem?_append_right (by omega)] at hcon
        have hnone : (['}'] : List Char)[k2 - m.length]? = none := by
          apply List.getElem?_eq_none
          simp
          omega
        rw [hnone] at hcon
        exact absurd hcon (by simp)

theorem BraceBlock.rbrace_last {t : List Char} (h : BraceBlock t) (k : Nat)
    (hk : t[k]? = some '}') : k = t.length - 1 := by
  obtain ⟨m, rfl, -, hm⟩ := h
  cases k with
  | zero =>
      exfalso
      rw [List.getElem?_cons_zero] at hk
      exact absurd hk (by decide)
  | succ k2 =>
      rw [List.getElem?_cons_succ] at hk
      rcases Nat.lt_trichotomy k2 m.length with hlt | heq | hgt
      · exfalso
        rw [List.getElem?_append_left hlt] at hk
        obtain ⟨hk2, hv⟩ := List.getElem?_eq_some_iff.1 hk
        exact hm (hv ▸ List.getElem_mem hk2)
      · subst heq
        simp
      · exfalso
        rw [List.getElem?_append_right (by omega)] at hk
        have hnone : (['}'] : List Char)[k2 - m.length]? = none := by
          apply List.getElem?_eq_none
          simp
          omega
        rw [hnone] at hk
        exact absurd hk (by simp)

theorem BraceBlock.last_eq {t : List Char} (h : BraceBlock t) :
    t[t.length - 1]? = some '}' := by
  obtain ⟨m, rfl, -, -⟩ := h
  have hlen : ('{' :: (m ++ ['}'])).length - 1 = m.length + 1 := by simp
  rw [hlen, List.getElem?_cons_succ, List.getElem?_append_right (Nat.le_refl _)]
  rw [Nat.sub_self]
  rfl

theorem braceBlock_append_eq_aux {pat tok post y : List Char}
    (hpat : BraceBlock pat) (htok : BraceBlock tok)
    (hlen : pat.length ≤ tok.length) (h : pat ++ post = tok ++ y) :
    pat = tok := by
  have htake : pat = tok.take pat.length := by
    have h1 : (pat ++ post).take pat.length = pat := List.take_left ..
    have h2 : (tok ++ y).take pat.length = tok.take pat.length := by
      rw [List.take_append_eq_append_take, Nat.sub_eq_zero_of_le hlen]
      simp
    conv_lhs => rw [← h1]
    rw [h, h2]
  rcases Nat.lt_or_ge pat.length tok.length with hlt | hge
  · exfalso
    have hplen := hpat.length_ge
    have hplast := hpat.last_eq
    have hidx : pat.length - 1 < pat.length := by omega
    have htl : tok[pat.length - 1]? = some '}' := by
      rw [← List.getElem?_take_of_lt hidx, ← htake]
      exact hplast
    have := htok.rbrace_last (pat.length - 1) htl
    have htlen := htok.length_ge
    omega
  · have heq : pat.length = tok.length := Nat.le_antisymm hlen hge
    rw [heq, List.take_length] at htake
    exact htake

theorem braceBlock_append_eq {pat tok post y : List Char}
    (hpat : BraceBlock pat) (htok : BraceBlock tok)
    (h : pat ++ post = tok ++ y) : pat = tok := by
  rcases Nat.le_total pat.length tok.length with hle | hle
  · exact braceBlock_append_eq_aux hpat htok hle h
  · exact (braceBlock_append_eq_aux htok hpat hle h.symm).symm

/-- Occurrences of two distinct brace-block patterns in the same string
never overlap: one region ends before the other starts. -/
theorem braceBlock_disjoint {pat tok s pre post x y : List Char}
    (hpat : BraceBlock pat) (htok : BraceBlock tok) (hne : pat ≠ tok)
    (h1 : s = pre ++ pat ++ post) (h2 : s = x ++ tok ++ y) :
    x.length + tok.length ≤ pre.length ∨
    pre.length + pat.length ≤ x.length := by
  by_contra hcon
  push_neg at hcon
  obtain ⟨hc1, hc2⟩ := hcon
  rcases lt_trichotomy pre.length x.length with hlt | heq | hgt
  · have hxy : x.length < (x ++ tok).length := by
      simp only [List.length_append]
      have := htok.length_ge
      omega
    have hxtok : s[x.length]? = some '{' := by
      rw [h2, List.getElem?_append_left hxy,
        List.getElem?_append_right (Nat.le_refl x.length), Nat.sub_self]
      exact htok.head_eq
    have hlt2 : x.length < (pre ++ pat).length := by
      simp only [List.length_append]
      omega
    have hxpat : s[x.length]? = pat[x.length - pre.length]? := by
      rw [h1, List.getElem?_append_left hlt2,
        List.getElem?_append_right (Nat.le_of_lt hlt)]
    rw [hxpat] at hxtok
    exact hpat.no_lbrace (x.length - pre.length) (by omega) hxtok
  · have h1a : s = pre ++ (pat ++ post) := by rw [h1, List.append_assoc]
    have h2a : s = x ++ (tok ++ y) := by rw [h2, List.append_assoc]
    obtain ⟨hpx, hrest⟩ := List.append_inj (h1a.symm.trans h2a) heq
    exact hne (braceBlock_append_eq hpat htok hrest)
  · have hpp : pre.length < (pre ++ pat).length := by
      simp only [List.length_append]
      have := hpat.length_ge
      omega
    have hppat : s[pre.length]? = some '{' := by
      rw [h1, List.getElem?_append_left hpp,
        List.getElem?_append_right (Nat.le_refl pre.length), Nat.sub_self]
      exact hpat.head_eq
    have hpx : pre.length < (x ++ tok).length := by
      simp only [List.length_append]
      omega
    have hptok : s[pre.length]? = tok[pre.length - x.length]? := by
      rw [h2, List.getElem?_append_left hpx,
        List.getElem?_append_right (Nat.le_of_lt hgt)]
    rw [hptok] at hppat
    exact htok.no_lbrace (pre.length - x.length) (by omega) hppat

theorem occ_in_left {a b x tok y : List Char}
    (hab : a ++ b = x ++ tok ++ y)
    (hlen : x.length + tok.length ≤ a.length) : ∃ r, a = x ++ tok ++ r := by
  refine ⟨a.drop (x.length + tok.length), ?_⟩
  have h1 : a.take (x.length + tok.length) = x ++ tok := by
    have e1 : (a ++ b).take (x.length + tok.length) =
        a.take (x.length + tok.length) := by
      rw [List.take_append_eq_append_take, Nat.sub_eq_zero_of_le hlen]
      simp
    have hxt : (x ++ tok).length = x.length + tok.length := by simp
    have e2 : (x ++ tok ++ y).take (x.length + tok.length) = x ++ tok := by
      rw [← hxt, List.take_left]
    rw [← e2, ← hab, e1]
  calc a = a.take (x.length + tok.length) ++ a.drop (x.length + tok.length) :=
        (List.take_append_drop _ _).symm
    _ = x ++ tok ++ a.drop (x.length + tok.length) := by rw [h1]

theorem occ_in_right {a b x tok y : List Char}
    (hab : a ++ b = x ++ tok ++ y)
    (hlen : a.length ≤ x.length) : ∃ r, b = r ++ tok ++ y := by
  refine ⟨x.drop a.length, ?_⟩
  have h1 : b = (a ++ b).drop a.length := (List.drop_left a b).symm
  have hxtl : a.length ≤ (x ++ tok).length := by
    simp only [List.length_append]
    omega
  rw [hab, List.drop_append_eq_append_drop, List.drop_append_eq_append_drop,
    Nat.sub_eq_zero_of_le hlen, Nat.sub_eq_zero_of_le hxtl] at h1
  simpa using h1

/-- Replacing the first occurrence of a different brace-block pattern keeps
a repeated token occurrence intact twice over. -/
theorem replaceFirst_keeps_double (pat tok repl s : List Char)
    (hpat : BraceBlock pat) (htok : BraceBlock tok) (hne : pat ≠ tok)
    (h : ∃ x y z, s = x ++ tok ++ y ++ tok ++ z) :
    ∃ x y z, replaceFirstList pat repl s = x ++ tok ++ y ++ tok ++ z := by
  obtain ⟨x, y, z, hs⟩ := h
  cases hfm : findMatch pat s with
  | none =>
      refine ⟨x, y, z, ?_⟩
      unfold replaceFirstList
      rw [hfm]
      exact hs
  | some pp =>
      obtain ⟨pre, post⟩ := pp
      have hdec := findMatch_decomp s pat pre post hfm
      have hrf : replaceFirstList pat repl s =
          pre ++ subDollar pat pre post repl ++ post := by
        unfold replaceFirstList
        rw [hfm]
      have hs2 : s = (x ++ tok ++ y) ++ tok ++ z := hs
      have hd2 := braceBlock_disjoint hpat htok hne hdec hs2
      rcases hd2 with hleft2 | hright2
      · have hab : pre ++ (pat ++ post) = (x ++ tok ++ y) ++ tok ++ z := by
          rw [← List.append_assoc]
          exact hdec.symm.trans hs2
        obtain ⟨r, hr⟩ := occ_in_left hab hleft2
        refine ⟨x, y, r ++ subDollar pat pre post repl ++ post, ?_⟩
        rw [hrf, hr]
        simp [List.append_assoc]
      · have hs1 : s = x ++ tok ++ (y ++ tok ++ z) := by
          rw [hs]
          simp [List.append_assoc]
        have hd1 := braceBlock_disjoint hpat htok hne hdec hs1
        rcases hd1 with hleft1 | hright1
        · have hab1 : pre ++ (pat ++ post) = x ++ tok ++ (y ++ tok ++ z) := by
            rw [← List.append_assoc]
            exact hdec.symm.trans hs1
          obtain ⟨r1, hr1⟩ := occ_in_left hab1 hleft1
          have hab2 : (pre ++ pat) ++ post = (x ++ tok ++ y) ++ tok ++ z :=
            hdec.symm.trans hs2
          have hlen2 : (pre ++ pat).length ≤ (x ++ tok ++ y).length := by
            simpa using hright2
          obtain ⟨r2, hr2⟩ := occ_in_right hab2 hlen2
          refine ⟨x, r1 ++ subDollar pat pre post repl ++ r2, z, ?_⟩
          rw [hrf, hr1, hr2]
          simp [List.append_assoc]
        · have hab : (pre ++ pat) ++ post = x ++ tok ++ (y ++ tok ++ z) :=
            hdec.symm.trans hs1
          have hlen : (pre ++ pat).length ≤ x.length := by
            simpa using hright1
          obtain ⟨r, hr⟩ := occ_in_right hab hlen
          refine ⟨pre ++ subDollar pat pre post repl ++ r, y, z, ?_⟩
          rw [hrf, hr]
          simp [List.append_assoc]

/-- Replacing the first occurrence of the token itself consumes only that
occurrence: a second occurrence survives. -/
theorem replaceFirst_self_keeps_one (tok repl s : List Char)
    (h : ∃ x y z, s = x ++ tok ++ y ++ tok ++ z) :
    ∃ u w, replaceFirstList tok repl s = u ++ tok ++ w := by
  obtain ⟨x, y, z, hs⟩ := h
  have hs1 : s = x ++ tok ++ (y ++ tok ++ z) := by
    rw [hs]
    simp [List.append_assoc]
  have hocc : (findMatch tok s).isSome = true := by
    rw [hs1]
    exact findMatch_isSome_of_occurs x tok (y ++ tok ++ z)
  cases hfm : findMatch tok s with
  | none =>
      rw [hfm] at hocc
      simp at hocc
  | some pp =>
      obtain ⟨pre, post⟩ := pp
      have hdec := findMatch_decomp s tok pre post hfm
      have hrf : replaceFirstList tok repl s =
          pre ++ subDollar tok pre post repl ++ post := by
        unfold replaceFirstList
        rw [hfm]
      have hlm := findMatch_leftmost s tok pre post x (y ++ tok ++ z) hfm hs1
      have hab : (pre ++ tok) ++ post = (x ++ tok ++ y) ++ tok ++ z :=
        hdec.symm.trans hs
      have hlen : (pre ++ tok).length ≤ (x ++ tok ++ y).length := by
        simp only [List.length_append]
        omega
      obtain ⟨r, hr⟩ := occ_in_right hab hlen
      refine ⟨pre ++ subDollar tok pre post repl ++ r, z, ?_⟩
      rw [hrf, hr]
      simp [List.append_assoc]

/-- Replacing the first occurrence of a different brace-block pattern keeps
a single token occurrence intact. -/
theorem replaceFirst_keeps_one (pat tok repl s : List Char)
    (hpat : BraceBlock pat) (htok : BraceBlock tok) (hne : pat ≠ tok)
    (h : ∃ u w, s = u ++ tok ++ w) :
    ∃ u w, replaceFirstList pat repl s = u ++ tok ++ w := by
  obtain ⟨u, w, hs⟩ := h
  cases hfm : findMatch pat s with
  | none =>
      refine ⟨u, w, ?_⟩
      unfold replaceFirstList
      rw [hfm]
      exact hs
  | some pp =>
      obtain ⟨pre, post⟩ := pp
      have hdec := findMatch_decomp s pat pre post hfm
      have hrf : replaceFirstList pat repl s =
          pre ++ subDollar pat pre post repl ++ post := by
        unfold replaceFirstList
        rw [hfm]
      have hdisj := braceBlock_disjoint hpat htok hne hdec hs
      rcases hdisj with hleft | hright
      · have hab : pre ++ (pat ++ post) = u ++ tok ++ w := by
          rw [← List.append_assoc]
          exact hdec.symm.trans hs
        obtain ⟨r, hr⟩ := occ_in_left hab hleft
        refine ⟨u, r ++ subDollar pat pre post repl ++ post, ?_⟩
        rw [hrf, hr]
        simp [List.append_assoc]
      · have hab : (pre ++ pat) ++ post = u ++ tok ++ w :=
          hdec.symm.trans hs
        have hlen : (pre ++ pat).length ≤ u.length := by
          simpa using hright
        obtain ⟨r, hr⟩ := occ_in_right hab hlen
        refine ⟨pre ++ subDollar pat pre post repl ++ r, w, ?_⟩
        rw [hrf, hr]
        simp [List.append_assoc]

/-- The final global sanitization keeps a token occurrence whose characters
the sanitizer leaves unchanged. -/
theorem map_keeps_token (f : Char → Char) (tok s : List Char)
    (hf : tok.map f = tok) (h : ∃ u w, s = u ++ tok ++ w) :
    ∃ u w, s.map f = u ++ tok ++ w := by
  obtain ⟨u, w, rfl⟩ := h
  exact ⟨u.map f, w.map f, by simp [hf]⟩

theorem bbSymbol : BraceBlock ("{symbol}" : String).data :=
  ⟨"symbol".data, by decide, by decide, by decide⟩

theorem bbTimeframe : BraceBlock ("{timeframe}" : String).data :=
  ⟨"timeframe".data, by decide, by decide, by decide⟩

theorem bbSession : BraceBlock ("{session}" : String).data :=
  ⟨"session".data, by decide, by decide, by decide⟩

theorem bbDate : BraceBlock ("{date}" : String).data :=
  ⟨"date".data, by decide, by decide, by decide⟩

theorem bbOutcome : BraceBlock ("{outcome}" : String).data :=
  ⟨"outcome".data, by decide, by decide, by decide⟩

theorem bbSetup : BraceBlock ("{setup}" : String).data :=
  ⟨"setup".data, by decide, by decide, by decide⟩

theorem bbProject : BraceBlock ("{project}" : String).data :=
  ⟨"project".data, by decide, by decide, by decide⟩

theorem bbTheme : BraceBlock ("{theme}" : String).data :=
  ⟨"theme".data, by decide, by decide, by decide⟩

/-- The eight substitution tokens of buildFileName. -/
def fileNameTokens : List String :=
  ["{symbol}", "{timeframe}", "{session}", "{date}",
   "{outcome}", "{setup}", "{project}", "{theme}"]

/-- Claim C10 — buildFileName substitutes only the first occurrence of each
token: for every template in which any one of the eight tokens occurs more
than once, and for every choice of token values and current day, a later
occurrence of that token survives as literal text in the resulting file
name instead of being replaced by the token's value. -/
theorem buildFileName_first_occurrence_only (today template : String)
    (data : FileNameData) (tok : String) (htok : tok ∈ fileNameTokens)
    (x y z : List Char)
    (hrep : template.data = x ++ tok.data ++ y ++ tok.data ++ z) :
    ∃ u w, (buildFileName today template data).data = u ++ tok.data ++ w := by
  have hx : ∃ a b c, template.data = a ++ tok.data ++ b ++ tok.data ++ c :=
    ⟨x, y, z, hrep⟩
  clear hrep
  simp only [fileNameTokens, List.mem_cons, List.not_mem_nil, or_false] at htok
  rcases htok with rfl | rfl | rfl | rfl | rfl | rfl | rfl | rfl
  · have h0 := hx
    have h1 := replaceFirst_self_keeps_one _
      (jsOr data.symbol "Unknown").data _ h0
    have h2 := replaceFirst_keeps_one ("{timeframe}" : String).data _
      (jsOr data.timeframe "Unknown").data _ bbTimeframe bbSymbol (by decide) h1
    have h3 := replaceFirst_keeps_one ("{session}" : String).data _
      (removeWs (jsOr data.session "Unknown")).data _ bbSession bbSymbol (by decide) h2
    have h4 := replaceFirst_keeps_one ("{date}" : String).data _
      (jsOr data.date today).data _ bbDate bbSymbol (by decide) h3
    have h5 := replaceFirst_keeps_one ("{outcome}" : String).data _
      (jsOr (data.outcome.getD "") "Pending").data _ bbOutcome bbSymbol (by decide) h4
    have h6 := replaceFirst_keeps_one ("{setup}" : String).data _
      (jsOr (collapseWs (data.setupName.getD "")) "Setup").data _ bbSetup bbSymbol (by decide) h5
    have h7 := replaceFirst_keeps_one ("{project}" : String).data _
      (collapseWs (jsOr (data.project.getD "") "General")).data _ bbProject bbSymbol (by decide) h6
    have h8 := replaceFirst_keeps_one ("{theme}" : String).data _
      (collapseWs (jsOr (data.theme.getD "") "Global")).data _ bbTheme bbSymbol (by decide) h7
    exact map_keeps_token replaceUnsafe _ _ (by decide) h8
  · have h0 := hx
    have h1 := replaceFirst_keeps_double ("{symbol}" : String).data _
      (jsOr data.symbol "Unknown").data _ bbSymbol bbTimeframe (by decide) h0
    have h2 := replaceFirst_self_keeps_one _
      (jsOr data.timeframe "Unknown").data _ h1
    have h3 := replaceFirst_keeps_one ("{session}" : String).data _
      (removeWs (jsOr data.session "Unknown")).data _ bbSession bbTimeframe (by decide) h2
    have h4 := replaceFirst_keeps_one ("{date}" : String).data _
      (jsOr data.date today).data _ bbDate bbTimeframe (by decide) h3
    have h5 := replaceFirst_keeps_one ("{outcome}" : String).data _
      (jsOr (data.outcome.getD "") "Pending").data _ bbOutcome bbTimeframe (by decide) h4
    have h6 := replaceFirst_keeps_one ("{setup}" : String).data _
      (jsOr (collapseWs (data.setupName.getD "")) "Setup").data _ bbSetup bbTimeframe (by decide) h5
    have h7 := replaceFirst_keeps_one ("{project}" : String).data _
      (collapseWs (jsOr (data.project.getD "") "General")).data _ bbProject bbTimeframe (by decide) h6
    have h8 := replaceFirst_keeps_one ("{theme}" : String).data _
      (collapseWs (jsOr (data.theme.getD "") "Global")).data _ bbTheme bbTimeframe (by decide) h7
    exact map_keeps_token replaceUnsafe _ _ (by decide) h8
  · have h0 := hx
    have h1 := replaceFirst_keeps_double ("{symbol}" : String).data _
      (jsOr data.symbol "Unknown").data _ bbSymbol bbSession (by decide) h0
    have h2 := replaceFirst_keeps_double ("{timeframe}" : String).data _
      (jsOr data.timeframe "Unknown").data _ bbTimeframe bbSession (by decide) h1
    have h3 := replaceFirst_self_keeps_one _
      (removeWs (jsOr data.session "Unknown")).data _ h2
    have h4 := replaceFirst_keeps_one ("{date}" : String).data _
      (jsOr data.date today).data _ bbDate bbSession (by decide) h3
    have h5 := replaceFirst_keeps_one ("{outcome}" : String).data _
      (jsOr (data.outcome.getD "") "Pending").data _ bbOutcome bbSession (by decide) h4
    have h6 := replaceFirst_keeps_one ("{setup}" : String).data _
      (jsOr (collapseWs (data.setupName.getD "")) "Setup").data _ bbSetup bbSession (by decide) h5
    have h7 := replaceFirst_keeps_one ("{project}" : String).data _
      (collapseWs (jsOr (data.project.getD "") "General")).data _ bbProject bbSession (by decide) h6
    have h8 := replaceFirst_keeps_one ("{theme}" : String).data _
      (collapseWs (jsOr (data.theme.getD "") "Global")).data _ bbTheme bbSession (by decide) h7
    exact map_keeps_token replaceUnsafe _ _ (by decide) h8
  · have h0 := hx
    have h1 := replaceFirst_keeps_double ("{symbol}" : String).data _
      (jsOr data.symbol "Unknown").data _ bbSymbol bbDate (by decide) h0
    have h2 := replaceFirst_keeps_double ("{timeframe}" : String).data _
      (jsOr data.timeframe "Unknown").data _ bbTimeframe bbDate (by decide) h1
    have h3 := replaceFirst_keeps_double ("{session}" : String).data _
      (removeWs (jsOr data.session "Unknown")).data _ bbSession bbDate (by decide) h2
    have h4 := replaceFirst_self_keeps_one _
      (jsOr data.date today).data _ h3
    have h5 := replaceFirst_keeps_one ("{outcome}" : String).data _
      (jsOr (data.outcome.getD "") "Pending").data _ bbOutcome bbDate (by decide) h4
    have h6 := replaceFirst_keeps_one ("{setup}" : String).data _
      (jsOr (collapseWs (data.setupName.getD "")) "Setup").data _ bbSetup bbDate (by decide) h5
    have h7 := replaceFirst_keeps_one ("{project}" : String).data _
      (collapseWs (jsOr (data.project.getD "") "General")).data _ bbProject bbDate (by decide) h6
    have h8 := replaceFirst_keeps_one ("{theme}" : String).data _
      (collapseWs (jsOr (data.theme.getD "") "Global")).data _ bbTheme bbDate (by decide) h7
    exact map_keeps_token replaceUnsafe _ _ (by decide) h8
  · have h0 := hx
    have h1 := replaceFirst_keeps_double ("{symbol}" : String).data _
      (jsOr data.symbol "Unknown").data _ bbSymbol bbOutcome (by decide) h0
    have h2 := replaceFirst_keeps_double ("{timeframe}" : String).data _
      (jsOr data.timeframe "Unknown").data _ bbTimeframe bbOutcome (by decide) h1
    have h3 := replaceFirst_keeps_double ("{session}" : String).data _
      (removeWs (jsOr data.session "Unknown")).data _ bbSession bbOutcome (by decide) h2
    have h4 := replaceFirst_keeps_double ("{date}" : String).data _
      (jsOr data.date today).data _ bbDate bbOutcome (by decide) h3
    have h5 := replaceFirst_self_keeps_one _
      (jsOr (data.outcome.getD "") "Pending").data _ h4
    have h6 := replaceFirst_keeps_one ("{setup}" : String).data _
      (jsOr (collapseWs (data.setupName.getD "")) "Setup").data _ bbSetup bbOutcome (by decide) h5
    have h7 := replaceFirst_keeps_one ("{project}" : String).data _
      (collapseWs (jsOr (data.project.getD "") "General")).data _ bbProject bbOutcome (by decide) h6
    have h8 := replaceFirst_keeps_one ("{theme}" : String).data _
      (collapseWs (jsOr (data.theme.getD "") "Global")).data _ bbTheme bbOutcome (by decide) h7
    exact map_keeps_token replaceUnsafe _ _ (by decide) h8
  · have h0 := hx
    have h1 := replaceFirst_keeps_double ("{symbol}" : String).data _
      (jsOr data.symbol "Unknown").data _ bbSymbol bbSetup (by decide) h0
    have h2 := replaceFirst_keeps_double ("{timeframe}" : String).data _
      (jsOr data.timeframe "Unknown").data _ bbTimeframe bbSetup (by decide) h1
    have h3 := replaceFirst_keeps_double ("{session}" : String).data _
      (removeWs (jsOr data.session "Unknown")).data _ bbSession bbSetup (by decide) h2
    have h4 := replaceFirst_keeps_double ("{date}" : String).data _
      (jsOr data.date today).data _ bbDate bbSetup (by decide) h3
    have h5 := replaceFirst_keeps_double ("{outcome}" : String).data _
      (jsOr (data.outcome.getD "") "Pending").data _ bbOutcome bbSetup (by decide) h4
    have h6 := replaceFirst_self_keeps_one _
      (jsOr (collapseWs (data.setupName.getD "")) "Setup").data _ h5
    have h7 := replaceFirst_keeps_one ("{project}" : String).data _
      (collapseWs (jsOr (data.project.getD "") "General")).data _ bbProject bbSetup (by decide) h6
    have h8 := replaceFirst_keeps_one ("{theme}" : String).data _
      (collapseWs (jsOr (data.theme.getD "") "Global")).data _ bbTheme bbSetup (by decide) h7
    exact map_keeps_token replaceUnsafe _ _ (by decide) h8
  · have h0 := hx
    have h1 := replaceFirst_keeps_double ("{symbol}" : String).data _
      (jsOr data.symbol "Unknown").data _ bbSymbol bbProject (by decide) h0
    have h2 := replaceFirst_keeps_double ("{timeframe}" : String).data _
      (jsOr data.timeframe "Unknown").data _ bbTimeframe bbProject (by decide) h1
    have h3 := replaceFirst_keeps_double ("{session}" : String).data _
      (removeWs (jsOr data.session "Unknown")).data _ bbSession bbProject (by decide) h2
    have h4 := replaceFirst_keeps_double ("{date}" : String).data _
      (jsOr data.date today).data _ bbDate bbProject (by decide) h3
    have h5 := replaceFirst_keeps_double ("{outcome}" : String).data _
      (jsOr (data.outcome.getD "") "Pending").data _ bbOutcome bbProject (by decide) h4
    have h6 := replaceFirst_keeps_double ("{setup}" : String).data _
      (jsOr (collapseWs (data.setupName.getD "")) "Setup").data _ bbSetup bbProject (by decide) h5
    have h7 := replaceFirst_self_keeps_one _
      (collapseWs (jsOr (data.project.getD "") "General")).data _ h6
    have h8 := replaceFirst_keeps_one ("{theme}" : String).data _
      (collapseWs (jsOr (data.theme.getD "") "Global")).data _ bbTheme bbProject (by decide) h7
    exact map_keeps_token replaceUnsafe _ _ (by decide) h8
  · have h0 := hx
    have h1 := replaceFirst_keeps_double ("{symbol}" : String).data _
      (jsOr data.symbol "Unknown").data _ bbSymbol bbTheme (by decide) h0
    have h2 := replaceFirst_keeps_double ("{timeframe}" : String).data _
      (jsOr data.timeframe "Unknown").data _ bbTimeframe bbTheme (by decide) h1
    have h3 := replaceFirst_keeps_double ("{session}" : String).data _
      (removeWs (jsOr data.session "Unknown")).data _ bbSession bbTheme (by decide) h2
    have h4 := replaceFirst_keeps_double ("{date}" : String).data _
      (jsOr data.date today).data _ bbDate bbTheme (by decide) h3
    have h5 := replaceFirst_keeps_double ("{outcome}" : String).data _
      (jsOr (data.outcome.getD "") "Pending").data _ bbOutcome bbTheme (by decide) h4
    have h6 := replaceFirst_keeps_double ("{setup}" : String).data _
      (jsOr (collapseWs (data.setupName.getD "")) "Setup").data _ bbSetup bbTheme (by decide) h5
    have h7 := replaceFirst_keeps_double ("{project}" : String).data _
      (collapseWs (jsOr (data.project.getD "") "General")).data _ bbProject bbTheme (by decide) h6
    have h8 := replaceFirst_self_keeps_one _
      (collapseWs (jsOr (data.theme.getD "") "Global")).data _ h7
    exact map_keeps_token replaceUnsafe _ _ (by decide) h8

/-- Concrete instance of the first-occurrence theorem: in a template with
the symbol token twice, the second occurrence survives in the final name. -/
theorem buildFileName_first_occurrence_only_witness :
    ∃ u w, (buildFileName "2025-02-02" "{symbol}_{symbol}"
      { symbol := "EURUSD", timeframe := "H1", session := "New York",
        date := "2025-01-15", outcome := some "win",
        setupName := some "Pullback", project := some "Alpha",
        theme := some "Base" }).data = u ++ ("{symbol}" : String).data ++ w :=
  buildFileName_first_occurrence_only "2025-02-02" "{symbol}_{symbol}"
    { symbol := "EURUSD", timeframe := "H1", session := "New York",
      date := "2025-01-15", outcome := some "win",
      setupName := some "Pullback", project := some "Alpha",
      theme := some "Base" } "{symbol}" (by decide)
    [] "_".data [] (by decide)

end ChartLabs
